import Mathlib

/-!
# Sober Square: daily progress state machine and seeded art generator

A shallow embedding of `src/App.jsx`.  The React component state is one record
`State`; every event handler and effect becomes a pure function on that record.
The clock (`todayKey()`) and the random source (`Math.random()`) are read by the
source as ambient values; here they are explicit arguments (`today`, `u`).
-/

namespace SoberSquare

/-! ## Data model -/

/-- The object built by the completion effect (`earned`, App.jsx 244-249). -/
structure Badge where
  id : String
  number : Int
  date : String
  seed : Int
deriving DecidableEq, Repr

/-- The value held by the `modal` state: the check-in dialog, the completion dialog
(its two buttons close over `earned`), or a one-button message from `showMessage`. -/
inductive Modal where
  | checkIn (today : String)
  | completed (earned : Badge) (body : String)
  | message (title body : String)
deriving DecidableEq, Repr

/-- The `useState` cells of `App` (App.jsx 109-152).  `revealed` is a JS `Set` of cell
indices; `lastCheckDate` and `lastRevealDate` are `null` or a `YYYY-MM-DD` string. -/
structure State where
  seed : Int
  revealed : Finset Nat
  answeredNo : Bool
  lastCheckDate : Option String
  lastRevealDate : Option String
  badges : List Badge
  pendingBadge : Option Badge
  streakDays : Int
  totalSoberDays : Int
  modal : Option Modal
deriving DecidableEq

/-- The eight fields written by the persistence effect (App.jsx 194-203). -/
def State.progress (s : State) :
    Int × Finset Nat × Bool × Option String × Option String × List Badge × Int × Int :=
  (s.seed, s.revealed, s.answeredNo, s.lastCheckDate, s.lastRevealDate, s.badges,
    s.streakDays, s.totalSoberDays)

/-! ## Handlers -/

/-- `showMessage(title, body)` (App.jsx 164-170): replaces the modal. -/
def showMessage (title body : String) (s : State) : State :=
  { s with modal := some (Modal.message title body) }

/-- `revealCell(i)` (App.jsx 281-307), with `today = todayKey()`. -/
def revealCell (today : String) (i : Nat) (s : State) : State :=
  if s.lastCheckDate ≠ some today then
    showMessage "Answer required" "Please complete today's check-in first." s
  else if s.answeredNo = false then
    showMessage "Not unlocked" "You answered Yes today, so the image reset." s
  else if s.lastRevealDate = some today then
    showMessage "Come back tomorrow" "You've already revealed a square today." s
  else
    showMessage "Nice." "Square revealed. See you tomorrow."
      { s with revealed := insert i s.revealed, lastRevealDate := some today }

/-- The three rejection messages of `revealCell`, in guard order. -/
def rejectionMessages : List Modal :=
  [ Modal.message "Answer required" "Please complete today's check-in first.",
    Modal.message "Not unlocked" "You answered Yes today, so the image reset.",
    Modal.message "Come back tomorrow" "You've already revealed a square today." ]

/-- A state that has checked in "No" today, has not revealed today, and already shows cell 0. -/
def alreadyRevealedState : State :=
  { seed := 7, revealed := {0}, answeredNo := true, lastCheckDate := some "2024-05-02",
    lastRevealDate := some "2024-05-01", badges := [], pendingBadge := none,
    streakDays := 2, totalSoberDays := 2, modal := none }

/-- Whether `u` is a non-negative binary64 value below `2 ^ 53`: at most 53 significant bits
and no bit below `2 ^ (-1074)`.  The values `Math.random()` returns are those below one. -/
def IsBinary64 (u : ℚ) : Prop := ∃ m e : Nat, m < 2 ^ 53 ∧ e ≤ 1074 ∧ u = (m : ℚ) / 2 ^ e

/-- Rounding to the nearest integer, ties to the even one. -/
def roundHalfEven (y : ℚ) : Int :=
  if y - ⌊y⌋ < 1 / 2 then ⌊y⌋
  else if 1 / 2 < y - ⌊y⌋ then ⌊y⌋ + 1
  else if ⌊y⌋ % 2 = 0 then ⌊y⌋ else ⌊y⌋ + 1

/-- The exponent of the spacing of binary64 values around a non-negative `x`: 52 below the
binade of `x`, and `-1074` throughout the subnormal range. -/
def ulpExponent (x : ℚ) : Int := max (Int.log 2 x) (-1022) - 52

/-- The binary64 value that a non-negative real `x` below the overflow threshold rounds to
(round to nearest, ties to even): the result of a double operation whose exact result is `x`. -/
def roundBinary64 (x : ℚ) : ℚ :=
  (roundHalfEven (x / (2 : ℚ) ^ ulpExponent x) : ℚ) * (2 : ℚ) ^ ulpExponent x

/-- The expression `Math.floor(Math.random() * 1e9)` (App.jsx 114, 173) with `u` the binary64
value returned by `Math.random()`: the product is a double multiplication, so the exact
product is rounded to binary64 before the floor is taken. -/
def drawSeed (u : ℚ) : Int := ⌊roundBinary64 (u * 1000000000)⌋

/-- A value that `Math.random()` can return: `2702159780925897 * 2 ^ (-52)`, just below
`0.600000001`. -/
def roundedUpDraw : ℚ := 2702159780925897 / 2 ^ 52

/-- `resetImage()` (App.jsx 172-177). -/
def resetImage (u : ℚ) (s : State) : State :=
  { s with seed := drawSeed u, revealed := ∅, answeredNo := false, lastRevealDate := none }

/-- The daily check-in effect (App.jsx 207-239) up to the point where the dialog opens. -/
def checkInEffect (today : String) (s : State) : State :=
  if s.lastCheckDate ≠ some today then
    { s with answeredNo := false, modal := some (Modal.checkIn today) }
  else s

/-- The `onClick` of "Yes (reset)" (App.jsx 219-224). -/
def onYes (today : String) (u : ℚ) (s : State) : State :=
  { resetImage u { s with lastCheckDate := some today, streakDays := 0 } with modal := none }

/-- The `onClick` of "No" (App.jsx 228-234). -/
def onNo (today : String) (s : State) : State :=
  { s with
    lastCheckDate := some today
    answeredNo := true
    streakDays := s.streakDays + 1
    totalSoberDays := s.totalSoberDays + 1
    modal := none }

/-- The two answers of the check-in dialog. -/
inductive Answer where
  | yes (u : ℚ)
  | no
deriving DecidableEq

/-- Answering the check-in dialog.  The dialog and its buttons exist only inside
`if (lastCheckDate !== today)` (App.jsx 210); the effect clears `answeredNo` first. -/
def checkIn (today : String) (a : Answer) (s : State) : Option State :=
  if s.lastCheckDate ≠ some today then
    match a with
    | Answer.yes u => some (onYes today u (checkInEffect today s))
    | Answer.no => some (onNo today (checkInEffect today s))
  else none

/-- The object literal `earned` (App.jsx 244-249); `badges` is always an array, so
`safeArray(badges).length` is its length. -/
def mkBadge (today : String) (s : State) : Badge :=
  { id := today ++ "-" ++ toString s.seed ++ "-" ++ toString (s.badges.length + 1)
    number := (s.badges.length : Int) + 1
    date := today
    seed := s.seed }

/-- The body text of the completion dialog (App.jsx 255). -/
def completedBody (earned : Badge) (s : State) : String :=
  "Badge #" ++ toString earned.number ++ " earned • " ++ toString s.totalSoberDays ++
    " days alcohol-free"

/-- The completion effect (App.jsx 242-279) with `TOTAL = GRID * GRID`. -/
def completionEffect (grid : Int) (today : String) (s : State) : State :=
  if (s.revealed.card : Int) = grid * grid ∧ s.pendingBadge = none then
    { s with
      pendingBadge := some (mkBadge today s)
      modal := some (Modal.completed (mkBadge today s) (completedBody (mkBadge today s) s)) }
  else s

/-- The `onClick` of "Next image" (App.jsx 269-274) for the badge `earned` it closes over. -/
def onNextImage (earned : Badge) (u : ℚ) (s : State) : State :=
  { resetImage u { s with badges := earned :: s.badges, pendingBadge := none } with
    modal := none }

/-- The `onClick` of "Share" (App.jsx 259-265).  `exportOk = false` stands for
`await shareCompletion(earned)` rejecting: the statements after the `await` do not run. -/
def onShare (earned : Badge) (exportOk : Bool) (u : ℚ) (s : State) : State :=
  if exportOk then
    { resetImage u { s with badges := earned :: s.badges, pendingBadge := none } with
      modal := none }
  else
    { s with badges := earned :: s.badges }

/-- The user actions of the production build. -/
inductive Action where
  | checkInYes (u : ℚ)
  | checkInNo
  | reveal (i : Nat)
  | share (exportOk : Bool) (u : ℚ)
  | nextImage (u : ℚ)
deriving DecidableEq

/-- One handler call.  A button that is not on screen (check-in already answered today,
no badge pending) leaves the state as it is. -/
def act (today : String) (s : State) : Action → State
  | Action.checkInYes u => (checkIn today (Answer.yes u) s).getD s
  | Action.checkInNo => (checkIn today Answer.no s).getD s
  | Action.reveal i => revealCell today i s
  | Action.share ok u =>
      match s.pendingBadge with
      | some earned => onShare earned ok u s
      | none => s
  | Action.nextImage u =>
      match s.pendingBadge with
      | some earned => onNextImage earned u s
      | none => s

/-- One user action followed by the completion effect. -/
def step (grid : Int) (today : String) (s : State) (a : Action) : State :=
  completionEffect grid today (act today s a)

/-- A sequence of actions, each tagged with the day on which it happens. -/
def runDays (grid : Int) : State → List (String × Action) → State
  | s, [] => s
  | s, (today, a) :: rest => runDays grid (step grid today s a) rest

/-- A sequence of actions on one calendar day. -/
def runDay (grid : Int) (today : String) (s : State) (acts : List Action) : State :=
  runDays grid s (acts.map fun a => (today, a))

/-- Whether `revealCell` passed its three guards: it then shows "Nice.". -/
def revealSucceeded (today : String) (s : State) : Action → Bool
  | Action.reveal i =>
      decide ((revealCell today i s).modal =
        some (Modal.message "Nice." "Square revealed. See you tomorrow."))
  | _ => false

/-- The number of successful `revealCell` calls along a one-day run. -/
def successfulReveals (grid : Int) (today : String) : State → List Action → Nat
  | _, [] => 0
  | s, a :: rest =>
      (if revealSucceeded today s a then 1 else 0) +
        successfulReveals grid today (step grid today s a) rest

/-- Whether the action moves the pending badge into the history and resets the grid. -/
def resolves (s : State) : Action → Bool
  | Action.nextImage _ => s.pendingBadge.isSome
  | Action.share ok _ => ok && s.pendingBadge.isSome
  | _ => false

/-- The number of completion cycles closed along a run. -/
def resolutions (grid : Int) : State → List (String × Action) → Nat
  | _, [] => 0
  | s, (today, a) :: rest =>
      (if resolves s a then 1 else 0) + resolutions grid (step grid today s a) rest

/-- The list `k, k-1, ..., 1`. -/
def countdown : Nat → List Int
  | 0 => []
  | k + 1 => ((k : Int) + 1) :: countdown k

/-- Whether the action is a "Share" whose export fails. -/
def Action.isFailedShare : Action → Bool
  | Action.share false _ => true
  | _ => false

/-- How many reveals the day still allows: one until the check-in is answered and while the
day is unlocked and unused, none otherwise. -/
def revealBudget (today : String) (s : State) : Nat :=
  if s.lastCheckDate ≠ some today then 1
  else if s.answeredNo = true ∧ s.lastRevealDate ≠ some today then 1
  else 0

/-- A state with a complete 3×3 grid and badge 1 pending. -/
def pendingState : State :=
  { seed := 7, revealed := {0, 1, 2, 3, 4, 5, 6, 7, 8}, answeredNo := true,
    lastCheckDate := some "2024-05-02", lastRevealDate := some "2024-05-02", badges := [],
    pendingBadge := some { id := "2024-05-02-7-1", number := 1, date := "2024-05-02", seed := 7 },
    streakDays := 9, totalSoberDays := 9, modal := none }

/-- The history is numbered `n, n-1, ..., 1` and a pending badge carries the next number. -/
def Numbered (s : State) : Prop :=
  s.badges.map Badge.number = countdown s.badges.length ∧
    ∀ b, s.pendingBadge = some b → b.number = (s.badges.length : Int) + 1

/-- A state whose 3×3 grid is complete, before the completion effect has run. -/
def completeState : State := { pendingState with pendingBadge := none }

/-- A first-run state: nothing persisted. -/
def freshState : State :=
  { seed := 42, revealed := ∅, answeredNo := false, lastCheckDate := none,
    lastRevealDate := none, badges := [], pendingBadge := none, streakDays := 0,
    totalSoberDays := 0, modal := none }

/-- Two days on a 1×1 grid: each day check in "No", reveal the cell, choose "Next image". -/
def twoCycles : List (String × Action) :=
  [ ("2024-05-01", Action.checkInNo), ("2024-05-01", Action.reveal 0),
    ("2024-05-01", Action.nextImage (1 / 4)),
    ("2024-05-02", Action.checkInNo), ("2024-05-02", Action.reveal 0),
    ("2024-05-02", Action.nextImage (1 / 2)) ]

/-! ## Restoring persisted state -/

/-- A value as `JSON.parse` returns it.  Finite numbers are modelled as integers; `infinity`
is what an overflowing literal such as `1e999` parses to. -/
inductive JSON where
  | null
  | bool (b : Bool)
  | num (n : Int)
  | infinity (negative : Bool)
  | str (s : String)
  | arr (items : List JSON)
  | obj (fields : List (String × JSON))

/-- `loadState()` (App.jsx 8-16): `parsed` is `none` when nothing is stored or `JSON.parse`
throws, and the parsed value otherwise. -/
def loadState (parsed : Option JSON) : JSON :=
  match parsed with
  | none => JSON.null
  | some v => v

/-- The optional member access `s?.key`: `none` is `undefined`.  Only objects carry the keys
that the initialisers read. -/
def getField (s : JSON) (key : String) : Option JSON :=
  match s with
  | JSON.obj fields => fields.lookup key
  | _ => none

/-- The operator `a ?? d`: `d` replaces `undefined` and `null`. -/
def nullish (a : Option JSON) (d : JSON) : JSON :=
  match a with
  | none => d
  | some JSON.null => d
  | some v => v

/-- `safeArray(v)` (App.jsx 26-28). -/
def safeArray (v : Option JSON) : List JSON :=
  match v with
  | some (JSON.arr items) => items
  | _ => []

/-- `Number.isFinite(v) ? v : d` (App.jsx 146, 151, 157). -/
def finiteOr (v : Option JSON) (d : Int) : Int :=
  match v with
  | some (JSON.num n) => n
  | _ => d

/-- The equality used by a JS `Set`: primitives by value; every parsed array or object is
a distinct reference. -/
def sameValueZero : JSON → JSON → Bool
  | JSON.null, JSON.null => true
  | JSON.bool a, JSON.bool b => a == b
  | JSON.num a, JSON.num b => a == b
  | JSON.infinity a, JSON.infinity b => a == b
  | JSON.str a, JSON.str b => a == b
  | _, _ => false

/-- The elements that iterating a value yields, or `none` when the value is not iterable
(`new Set(v)` then throws a `TypeError`). -/
def iterate : JSON → Option (List JSON)
  | JSON.arr items => some items
  | JSON.str s => some (s.toList.map fun c => JSON.str (String.singleton c))
  | _ => none

/-- The members of `new Set(items)`, in insertion order. -/
def newSet (items : List JSON) : List JSON :=
  items.foldl (fun acc x => if acc.any (sameValueZero x) then acc else acc ++ [x]) []

/-- The values produced by the `useState` initialisers (App.jsx 112-158). -/
structure Restored where
  seed : JSON
  revealed : List JSON
  answeredNo : JSON
  lastCheckDate : JSON
  lastRevealDate : JSON
  badges : List JSON
  streakDays : Int
  totalSoberDays : Int
  gridSize : Int

/-- The initialiser of `revealed` (App.jsx 117-120): `new Set(s?.revealed ?? [])`. -/
def initRevealed (s : JSON) : Except String (List JSON) :=
  match iterate (nullish (getField s "revealed") (JSON.arr [])) with
  | some items => Except.ok (newSet items)
  | none => Except.error "TypeError: object is not iterable"

/-- `DEFAULT_GRID` (App.jsx 4). -/
def DEFAULT_GRID : Int := 3

/-- All `useState` initialisers in source order; the first one that throws aborts the render. -/
def initialise (parsed : Option JSON) (u : ℚ) : Except String Restored :=
  let s := loadState parsed
  match initRevealed s with
  | Except.error e => Except.error e
  | Except.ok revealed =>
    Except.ok
      { seed := nullish (getField s "seed") (JSON.num (drawSeed u))
        revealed := revealed
        answeredNo := nullish (getField s "answeredNo") (JSON.bool false)
        lastCheckDate := nullish (getField s "lastCheckDate") JSON.null
        lastRevealDate := nullish (getField s "lastRevealDate") JSON.null
        badges := safeArray (getField s "badges")
        streakDays := finiteOr (getField s "streakDays") 0
        totalSoberDays := finiteOr (getField s "totalSoberDays") 0
        gridSize := finiteOr (getField s "gridSize") DEFAULT_GRID }

/-- A payload whose only field is a negative streak counter. -/
def negativeStreakPayload : JSON := JSON.obj [("streakDays", JSON.num (-5))]

/-- A payload with wrongly typed counters, badges and grid size, and no `revealed`. -/
def wrongTypesPayload : JSON :=
  JSON.obj [("badges", JSON.str "x"), ("streakDays", JSON.str "7"),
    ("totalSoberDays", JSON.infinity false), ("gridSize", JSON.bool true)]

/-! ## Seeded art generator -/

/-- `ToUint32`: the 32-bit pattern of an integer. -/
def toUint32 (x : Int) : Nat := (x % 4294967296).toNat

/-- `Math.imul` on 32-bit patterns. -/
def imul (a b : Nat) : Nat := (a * b) % 4294967296

/-- The initial `t` of `randFromSeed(seed)` (App.jsx 31), as the 32-bit pattern that the
bitwise operators of the first call see. -/
def randFromSeed (seed : Int) : Nat := toUint32 (seed + 0x6d2b79f5)

/-- One call of the closure returned by `randFromSeed` (App.jsx 32-36): the value in `[0,1)`
and the new `t`. -/
def nextRand (t : Nat) : ℚ × Nat :=
  let t1 := imul (t ^^^ (t >>> 15)) (t ||| 1)
  let t2 := t1 ^^^ ((t1 + imul (t1 ^^^ (t1 >>> 7)) (t1 ||| 61)) % 4294967296)
  (((t2 ^^^ (t2 >>> 14) : Nat) : ℚ) / 4294967296, t2)

/-- One layer of the background: a template literal of `makeArtCss` with the numbers it
interpolates. -/
inductive Layer where
  | vignette
  | grain (deg : Int)
  | glaze (x y : ℚ)
  | spark (x y : ℚ) (hue : Int)
  | void (x y : ℚ)
  | sweep (deg : Int) (x y : ℚ) (h1 h2 : Int) (a : ℚ)
  | spot (x y : ℚ) (h s l : Int) (alpha stop : ℚ)
  | base (deg hue hue2 : Int)

/-- The kind of a layer, without its numbers. -/
inductive LayerKind where
  | vignette | grain | glaze | spark | void | sweep | spot | base
deriving DecidableEq, Repr

/-- The kind of a layer. -/
def Layer.kind : Layer → LayerKind
  | Layer.vignette => LayerKind.vignette
  | Layer.grain _ => LayerKind.grain
  | Layer.glaze _ _ => LayerKind.glaze
  | Layer.spark _ _ _ => LayerKind.spark
  | Layer.void _ _ => LayerKind.void
  | Layer.sweep _ _ _ _ _ _ => LayerKind.sweep
  | Layer.spot _ _ _ _ _ _ _ => LayerKind.spot
  | Layer.base _ _ _ => LayerKind.base

/-- The closure `r`: draws the next value and advances `t`. -/
def r : StateM Nat ℚ := fun t => nextRand t

/-- `Array.from` with a `length` of `n` and a callback `f` that ignores its arguments. -/
def arrayFrom {α : Type} (f : StateM Nat α) : Nat → StateM Nat (List α)
  | 0 => pure []
  | n + 1 => do
    let x ← f
    let rest ← arrayFrom f n
    pure (x :: rest)

/-- `spark` (App.jsx 71-74). -/
def spark : StateM Nat Layer := do
  let x ← r
  let y ← r
  let h ← r
  pure (Layer.spark (x * 100) (y * 100) ⌊h * 360⌋)

/-- The callback of `voids` (App.jsx 78-82). -/
def voidBlob : StateM Nat Layer := do
  let x ← r
  let y ← r
  pure (Layer.void (x * 100) (y * 100))

/-- `spot(h, s, l, alpha)` (App.jsx 48-49). -/
def spot (h s l : Int) (alpha : ℚ) : StateM Nat Layer := do
  let x ← r
  let y ← r
  let stop ← r
  pure (Layer.spot (x * 100) (y * 100) h s l alpha (45 + stop * 25))

/-- `sweep(deg, h1, h2)` (App.jsx 51-52) with the opacity `a` it closes over. -/
def sweep (a : ℚ) (deg h1 h2 : Int) : StateM Nat Layer := do
  let x ← r
  let y ← r
  pure (Layer.sweep deg (20 + x * 60) (20 + y * 60) h1 h2 a)

/-- The body of `makeArtCss` (App.jsx 40-95) as a computation on the generator state,
returning the array that the source joins with ",". -/
def artLayers : StateM Nat (List Layer) := do
  let hue : Int := ⌊(← r) * 360⌋
  let hue2 : Int := (hue + 80 + ⌊(← r) * 160⌋) % 360
  let hue3 : Int := (hue2 + 40 + ⌊(← r) * 140⌋) % 360
  let a : ℚ := 11 / 20 + (← r) * (1 / 4)
  let base := Layer.base ⌊(← r) * 360⌋ hue hue2
  let vign := Layer.vignette
  let grain := Layer.grain ⌊(← r) * 180⌋
  let gx ← r
  let gy ← r
  let glaze := Layer.glaze (20 + gx * 60) (15 + gy * 55)
  let sparks ← arrayFrom spark 18
  let voids ← arrayFrom voidBlob 6
  let deg : Int := ⌊(← r) * 360⌋
  let sw ← sweep a deg hue2 hue3
  let s1 ← spot hue 92 62 (11 / 20)
  let s2 ← spot hue2 90 58 (9 / 20)
  let s3 ← spot hue3 88 54 (2 / 5)
  pure ([vign, grain, glaze] ++ sparks ++ voids ++ [sw, s1, s2, s3, base])

/-- `makeArtCss(seed)` (App.jsx 39-96): the layers in the order of the returned array. -/
def makeArtCss (seed : Int) : List Layer :=
  (artLayers (randFromSeed seed)).1

/-- The order of layer kinds in the array returned by `makeArtCss`. -/
def layerOrder : List LayerKind :=
  [LayerKind.vignette, LayerKind.grain, LayerKind.glaze] ++
    List.replicate 18 LayerKind.spark ++ List.replicate 6 LayerKind.void ++
    [LayerKind.sweep, LayerKind.spot, LayerKind.spot, LayerKind.spot, LayerKind.base]

/-! ## Theorems -/

/-- C1: when there is no check-in today, or the answer was "Yes", or a reveal already happened
today, `revealCell` changes nothing but the modal: the eight persisted fields and the pending
badge are as before, and the modal is the rejection message of the first guard that fires. -/
theorem revealCell_rejected_no_change (today : String) (i : Nat) (s : State)
    (h : s.lastCheckDate ≠ some today ∨ s.answeredNo = false ∨ s.lastRevealDate = some today) :
    revealCell today i s = { s with modal := (revealCell today i s).modal } ∧
    (revealCell today i s).progress = s.progress ∧
    (revealCell today i s).pendingBadge = s.pendingBadge ∧
    (revealCell today i s).modal ∈ rejectionMessages.map some ∧
    (s.lastCheckDate ≠ some today →
      (revealCell today i s).modal =
        some (Modal.message "Answer required" "Please complete today's check-in first.")) ∧
    (s.lastCheckDate = some today → s.answeredNo = false →
      (revealCell today i s).modal =
        some (Modal.message "Not unlocked" "You answered Yes today, so the image reset.")) ∧
    (s.lastCheckDate = some today → s.answeredNo = true → s.lastRevealDate = some today →
      (revealCell today i s).modal =
        some (Modal.message "Come back tomorrow" "You've already revealed a square today.")) := by
  unfold revealCell
  by_cases h1 : s.lastCheckDate = some today
  · by_cases h2 : s.answeredNo = false
    · simp [h1, h2, showMessage, State.progress, rejectionMessages]
    · by_cases h3 : s.lastRevealDate = some today
      · simp [h1, h2, h3, showMessage, State.progress, rejectionMessages]
      · exfalso
        rcases h with h | h | h
        · exact h h1
        · exact h2 h
        · exact h3 h
  · simp [h1, showMessage, State.progress, rejectionMessages]

/-- C1 at a state that answered "Yes" today. -/
theorem revealCell_rejected_no_change_witness :
    (revealCell "2024-05-02" 4 { alreadyRevealedState with answeredNo := false }).progress =
      ({ alreadyRevealedState with answeredNo := false } : State).progress :=
  (revealCell_rejected_no_change "2024-05-02" 4 { alreadyRevealedState with answeredNo := false }
    (Or.inr (Or.inl rfl))).2.1

/-- C2 fails as stated: with check-in "No" today, no reveal yet today and cell 0 already
revealed, `revealCell 0` still writes `lastRevealDate`. -/
theorem revealCell_already_revealed_counterexample :
    alreadyRevealedState.lastCheckDate = some "2024-05-02" ∧
    alreadyRevealedState.answeredNo = true ∧
    alreadyRevealedState.lastRevealDate ≠ some "2024-05-02" ∧
    0 ∈ alreadyRevealedState.revealed ∧
    (revealCell "2024-05-02" 0 alreadyRevealedState).lastRevealDate = some "2024-05-02" ∧
    (revealCell "2024-05-02" 0 alreadyRevealedState).lastRevealDate ≠
      alreadyRevealedState.lastRevealDate := by
  simp [revealCell, showMessage, alreadyRevealedState]

/-- C2 amended: with check-in "No" today and no reveal yet today, `revealCell i` on a cell that
is already revealed is accepted: the revealed set keeps its members, `lastRevealDate` becomes
today, the success message is shown and every other field is unchanged. -/
theorem revealCell_already_revealed (today : String) (i : Nat) (s : State)
    (h1 : s.lastCheckDate = some today) (h2 : s.answeredNo = true)
    (h3 : s.lastRevealDate ≠ some today) (hi : i ∈ s.revealed) :
    revealCell today i s =
      { s with
        lastRevealDate := some today
        modal := some (Modal.message "Nice." "Square revealed. See you tomorrow.") } := by
  simp [revealCell, showMessage, h1, h2, h3, Finset.insert_eq_of_mem hi]

/-- C2 amended, at `alreadyRevealedState` and cell 0. -/
theorem revealCell_already_revealed_witness :
    revealCell "2024-05-02" 0 alreadyRevealedState =
      { alreadyRevealedState with
        lastRevealDate := some "2024-05-02"
        modal := some (Modal.message "Nice." "Square revealed. See you tomorrow.") } :=
  revealCell_already_revealed "2024-05-02" 0 alreadyRevealedState rfl rfl
    (by simp [alreadyRevealedState]) (by simp [alreadyRevealedState])

/-- C4: while the check-in is pending, answering "No" sets `lastCheckDate` to today and
`answeredNo` to true, adds one to `streakDays` and to `totalSoberDays`, and leaves the revealed
set, the seed, `lastRevealDate`, the badge history and the pending badge as they were. -/
theorem checkIn_no_effect (today : String) (s : State) (h : s.lastCheckDate ≠ some today) :
    checkIn today Answer.no s =
      some { s with
        lastCheckDate := some today
        answeredNo := true
        streakDays := s.streakDays + 1
        totalSoberDays := s.totalSoberDays + 1
        modal := none } := by
  simp [checkIn, h, onNo, checkInEffect]

/-- C4 at a state whose last check-in was the day before. -/
theorem checkIn_no_effect_witness :
    checkIn "2024-05-03" Answer.no alreadyRevealedState =
      some { alreadyRevealedState with
        lastCheckDate := some "2024-05-03"
        answeredNo := true
        streakDays := 3
        totalSoberDays := 3
        modal := none } :=
  checkIn_no_effect "2024-05-03" alreadyRevealedState (by simp [alreadyRevealedState])

/-! ### The seed drawn by a reset -/

theorem le_roundHalfEven (n : Int) (y : ℚ) (h : (n : ℚ) ≤ y) : n ≤ roundHalfEven y := by
  have h1 : n ≤ ⌊y⌋ := Int.le_floor.mpr h
  unfold roundHalfEven
  split_ifs <;> omega

theorem roundHalfEven_le (n : Int) (y : ℚ) (h : y ≤ (n : ℚ)) : roundHalfEven y ≤ n := by
  unfold roundHalfEven
  by_cases hy : y = ⌊y⌋
  · have h0 : y - ⌊y⌋ < 1 / 2 := by rw [← hy]; norm_num
    rw [if_pos h0]
    have : ((⌊y⌋ : Int) : ℚ) ≤ n := by rw [← hy]; exact h
    exact_mod_cast this
  · have hlt : (⌊y⌋ : ℚ) < y := lt_of_le_of_ne (Int.floor_le y) (Ne.symm hy)
    have : ((⌊y⌋ : Int) : ℚ) < n := lt_of_lt_of_le hlt h
    have h2 : ⌊y⌋ < n := by exact_mod_cast this
    split_ifs <;> omega

theorem roundHalfEven_lt (n : Int) (y : ℚ) (h : y + 1 / 2 < (n : ℚ)) : roundHalfEven y < n := by
  have hf := Int.floor_le y
  have h1 : ((⌊y⌋ : Int) : ℚ) < n := by linarith
  have h2 : ⌊y⌋ < n := by exact_mod_cast h1
  unfold roundHalfEven
  by_cases h3 : ⌊y⌋ + 1 < n
  · split_ifs <;> omega
  · have h4 : n = ⌊y⌋ + 1 := by omega
    have h5 : y - ⌊y⌋ < 1 / 2 := by
      have : (n : ℚ) = ⌊y⌋ + 1 := by rw [h4]; push_cast; ring
      linarith
    rw [if_pos h5]; omega


theorem ulpExponent_le (x : ℚ) (hx : x < 2 ^ 30) : ulpExponent x ≤ -23 := by
  unfold ulpExponent
  have hlog : Int.log 2 x < 30 := by
    rcases le_or_lt x 0 with h0 | h0
    · rw [Int.log_of_right_le_zero 2 h0]; norm_num
    · exact (Int.lt_zpow_iff_log_lt (by norm_num) h0).mp (by exact_mod_cast hx)
  have : max (Int.log 2 x) (-1022) ≤ 29 := max_le (by omega) (by norm_num)
  omega

/-- An integer is a multiple of every `2 ^ k` with `k ≤ 0`. -/
theorem int_on_grid (g k : Int) (hk : k ≤ 0) :
    ((g * 2 ^ (-k).toNat : Int) : ℚ) = (g : ℚ) / (2 : ℚ) ^ k := by
  obtain ⟨n, rfl⟩ : ∃ n : Nat, k = -(n : Int) := ⟨(-k).toNat, by omega⟩
  rw [zpow_neg, zpow_natCast, neg_neg, Int.toNat_natCast]
  push_cast
  rw [div_eq_mul_inv, inv_inv]

theorem floor_le_roundBinary64 (x : ℚ) (hx : x < 2 ^ 30) : (⌊x⌋ : ℚ) ≤ roundBinary64 x := by
  have hk := ulpExponent_le x hx
  have hp : (0 : ℚ) < (2 : ℚ) ^ ulpExponent x := zpow_pos (by norm_num) _
  have hg := int_on_grid ⌊x⌋ (ulpExponent x) (by omega)
  have h1 : ((⌊x⌋ * 2 ^ (-ulpExponent x).toNat : Int) : ℚ) ≤ x / (2 : ℚ) ^ ulpExponent x := by
    rw [hg]; exact div_le_div_of_nonneg_right (Int.floor_le x) hp.le
  have h2 := le_roundHalfEven _ _ h1
  have h3 : ((⌊x⌋ * 2 ^ (-ulpExponent x).toNat : Int) : ℚ) ≤
      (roundHalfEven (x / (2 : ℚ) ^ ulpExponent x) : ℚ) := by exact_mod_cast h2
  unfold roundBinary64
  rw [hg] at h3
  calc (⌊x⌋ : ℚ) = (⌊x⌋ : ℚ) / (2 : ℚ) ^ ulpExponent x * (2 : ℚ) ^ ulpExponent x := by
        field_simp
    _ ≤ _ := mul_le_mul_of_nonneg_right h3 hp.le

theorem roundBinary64_le_int (x : ℚ) (g : Int) (hx : x < 2 ^ 30) (hg : x ≤ g) :
    roundBinary64 x ≤ g := by
  have hk := ulpExponent_le x hx
  have hp : (0 : ℚ) < (2 : ℚ) ^ ulpExponent x := zpow_pos (by norm_num) _
  have hgrid := int_on_grid g (ulpExponent x) (by omega)
  have h1 : x / (2 : ℚ) ^ ulpExponent x ≤ ((g * 2 ^ (-ulpExponent x).toNat : Int) : ℚ) := by
    rw [hgrid]; exact div_le_div_of_nonneg_right hg hp.le
  have h2 := roundHalfEven_le _ _ h1
  have h3 : (roundHalfEven (x / (2 : ℚ) ^ ulpExponent x) : ℚ) ≤
      ((g * 2 ^ (-ulpExponent x).toNat : Int) : ℚ) := by exact_mod_cast h2
  unfold roundBinary64
  rw [hgrid] at h3
  calc _ ≤ (g : ℚ) / (2 : ℚ) ^ ulpExponent x * (2 : ℚ) ^ ulpExponent x :=
        mul_le_mul_of_nonneg_right h3 hp.le
    _ = g := by field_simp


theorem binary64_below_one (u : ℚ) (hb : IsBinary64 u) (h1 : u < 1) :
    u ≤ 1 - 1 / 2 ^ 53 := by
  obtain ⟨m, e, hm, _, rfl⟩ := hb
  have hpe : (0 : ℚ) < 2 ^ e := by positivity
  rcases le_or_lt e 53 with he | he
  · -- a multiple of `2 ^ (-53)` below one
    have hlt : (m : ℚ) < 2 ^ e := by rwa [div_lt_one hpe] at h1
    have hlt2 : m < 2 ^ e := by exact_mod_cast hlt
    have hle : (m : ℚ) + 1 ≤ 2 ^ e := by exact_mod_cast hlt2
    have h53 : (2 : ℚ) ^ e ≤ 2 ^ 53 := pow_le_pow_right₀ (by norm_num) he
    rw [div_le_iff₀ hpe]
    have : (1 - 1 / 2 ^ 53 : ℚ) * 2 ^ e = 2 ^ e - 2 ^ e / 2 ^ 53 := by ring
    rw [this]
    have : (2 : ℚ) ^ e / 2 ^ 53 ≤ 1 := by
      rw [div_le_one (by positivity)]; exact h53
    linarith
  · have h54 : (2 : ℚ) ^ 54 ≤ 2 ^ e := pow_le_pow_right₀ (by norm_num) he
    have hm2 : (m : ℚ) < 2 ^ 53 := by exact_mod_cast hm
    rw [div_le_iff₀ hpe]
    have : (1 - 1 / 2 ^ 53 : ℚ) * 2 ^ e ≥ (1 / 2) * 2 ^ e := by
      apply mul_le_mul_of_nonneg_right _ hpe.le
      norm_num
    have h2 : (1 / 2 : ℚ) * 2 ^ 54 = 2 ^ 53 := by norm_num
    nlinarith

/-- The product of a binary64 value below one and `1e9` rounds to a binary64 below `1e9`. -/
theorem roundBinary64_lt (x : ℚ)
    (hx : x ≤ 1000000000 - 1000000000 / 2 ^ 53) : roundBinary64 x < 1000000000 := by
  have hx30 : x < 2 ^ 30 := by
    have : (1000000000 - 1000000000 / 2 ^ 53 : ℚ) < 2 ^ 30 := by norm_num
    linarith
  rcases lt_or_le x (2 ^ 29) with hlow | hhigh
  · have := roundBinary64_le_int x (2 ^ 29) hx30 (by push_cast; exact hlow.le)
    have h2 : (((2 : Int) ^ 29 : Int) : ℚ) < 1000000000 := by norm_num
    linarith
  · have hx0 : 0 < x := lt_of_lt_of_le (by norm_num) hhigh
    have hlog : Int.log 2 x = 29 := by
      apply le_antisymm
      · have := (Int.lt_zpow_iff_log_lt (b := 2) (x := 30) (by norm_num) hx0).mp
          (by exact_mod_cast hx30)
        omega
      · exact (Int.zpow_le_iff_le_log (b := 2) (x := 29) (by norm_num) hx0).mp
          (by exact_mod_cast hhigh)
    have hk : ulpExponent x = -23 := by unfold ulpExponent; rw [hlog]; norm_num
    unfold roundBinary64
    rw [hk]
    have hy : x / (2 : ℚ) ^ (-23 : Int) + 1 / 2 < ((8388608000000000 : Int) : ℚ) := by
      have : x / (2 : ℚ) ^ (-23 : Int) = x * 8388608 := by
        rw [zpow_neg, div_eq_mul_inv, inv_inv]; norm_num
      rw [this]
      have : (1000000000 - 1000000000 / 2 ^ 53 : ℚ) * 8388608 + 1 / 2 < 8388608000000000 := by
        norm_num
      push_cast
      nlinarith
    have hr := roundHalfEven_lt _ _ hy
    have hr2 : (roundHalfEven (x / (2 : ℚ) ^ (-23 : Int)) : ℚ) ≤ 8388608000000000 - 1 := by
      have : roundHalfEven (x / (2 : ℚ) ^ (-23 : Int)) ≤ 8388608000000000 - 1 := by omega
      exact_mod_cast this
    have hp : (0 : ℚ) < (2 : ℚ) ^ (-23 : Int) := zpow_pos (by norm_num) _
    calc _ ≤ (8388608000000000 - 1 : ℚ) * (2 : ℚ) ^ (-23 : Int) :=
          mul_le_mul_of_nonneg_right hr2 hp.le
      _ < 1000000000 := by rw [zpow_neg]; norm_num

/-- The seed drawn from any binary64 `u` in `[0,1)` is the exact floor or one above it, and
lies in `[0, 10^9)`. -/
theorem drawSeed_bounds (u : ℚ) (hb : IsBinary64 u) (h0 : 0 ≤ u) (h1 : u < 1) :
    0 ≤ drawSeed u ∧ drawSeed u < 1000000000 ∧
      ⌊u * 1000000000⌋ ≤ drawSeed u ∧ drawSeed u ≤ ⌊u * 1000000000⌋ + 1 := by
  have hu := binary64_below_one u hb h1
  have hx0 : 0 ≤ u * 1000000000 := by positivity
  have hx : u * 1000000000 ≤ 1000000000 - 1000000000 / 2 ^ 53 := by
    have : (1 - 1 / 2 ^ 53 : ℚ) * 1000000000 = 1000000000 - 1000000000 / 2 ^ 53 := by ring
    rw [← this]
    exact mul_le_mul_of_nonneg_right hu (by norm_num)
  have hx30 : u * 1000000000 < 2 ^ 30 := by
    have : (1000000000 - 1000000000 / 2 ^ 53 : ℚ) < 2 ^ 30 := by norm_num
    linarith
  have hlo := floor_le_roundBinary64 _ hx30
  have hhi := roundBinary64_le_int (u * 1000000000) (⌊u * 1000000000⌋ + 1) hx30 (by
    push_cast; exact (Int.lt_floor_add_one _).le)
  have hlt := roundBinary64_lt _ hx
  have hfl0 : 0 ≤ ⌊u * 1000000000⌋ := Int.floor_nonneg.mpr hx0
  unfold drawSeed
  refine ⟨?_, ?_, ?_, ?_⟩
  · exact le_trans hfl0 (Int.le_floor.mpr hlo)
  · rw [Int.floor_lt]; exact_mod_cast hlt
  · exact Int.le_floor.mpr hlo
  · have := Int.floor_le (roundBinary64 (u * 1000000000))
    have h3 : ((⌊roundBinary64 (u * 1000000000)⌋ : Int) : ℚ) ≤
        ((⌊u * 1000000000⌋ + 1 : Int) : ℚ) := le_trans this hhi
    exact_mod_cast h3


theorem drawSeed_roundedUpDraw : drawSeed roundedUpDraw = 600000001 := by
  have hx : roundedUpDraw * 1000000000 = 2702159780925897 * 1000000000 / 2 ^ 52 := by
    unfold roundedUpDraw; ring
  have hx0 : (0 : ℚ) < 2702159780925897 * 1000000000 / 2 ^ 52 := by norm_num
  have hlog : Int.log 2 (2702159780925897 * 1000000000 / 2 ^ 52 : ℚ) = 29 := by
    apply le_antisymm
    · have := (Int.lt_zpow_iff_log_lt (b := 2) (x := 30) (by norm_num) hx0).mp (by norm_num)
      omega
    · exact (Int.zpow_le_iff_le_log (b := 2) (x := 29) (by norm_num) hx0).mp (by norm_num)
  have hk : ulpExponent (2702159780925897 * 1000000000 / 2 ^ 52 : ℚ) = -23 := by
    unfold ulpExponent; rw [hlog]; norm_num
  have hy : (2702159780925897 * 1000000000 / 2 ^ 52 : ℚ) / (2 : ℚ) ^ (-23 : Int) =
      5033164808388607 + 604493 / 1048576 := by
    rw [zpow_neg, div_eq_mul_inv, inv_inv]; norm_num
  have hfl : ⌊(5033164808388607 + 604493 / 1048576 : ℚ)⌋ = 5033164808388607 := by
    rw [Int.floor_eq_iff]; constructor <;> norm_num
  have hr : roundHalfEven (5033164808388607 + 604493 / 1048576 : ℚ) = 5033164808388608 := by
    unfold roundHalfEven
    rw [hfl]
    norm_num
  have hfl2 : roundBinary64 (2702159780925897 * 1000000000 / 2 ^ 52 : ℚ) = 600000001 := by
    unfold roundBinary64
    rw [hk, hy, hr, zpow_neg]
    norm_num
  unfold drawSeed
  rw [hx, hfl2]
  rw [Int.floor_eq_iff]; constructor <;> norm_num

theorem floor_roundedUpDraw : ⌊roundedUpDraw * 1000000000⌋ = 600000000 := by
  unfold roundedUpDraw
  rw [Int.floor_eq_iff]; constructor <;> norm_num

theorem isBinary64_roundedUpDraw : IsBinary64 roundedUpDraw :=
  ⟨2702159780925897, 52, by norm_num, by norm_num, by unfold roundedUpDraw; norm_num⟩

/-- C5 fails as stated: answering "Yes" with the draw `u = 2702159780925897 / 2 ^ 52`, a
binary64 value in `[0,1)`, sets the seed to 600000001, while `⌊u * 10^9⌋` is 600000000. -/
theorem checkIn_yes_seed_counterexample :
    alreadyRevealedState.lastCheckDate ≠ some "2024-05-03" ∧
    IsBinary64 roundedUpDraw ∧ 0 ≤ roundedUpDraw ∧ roundedUpDraw < 1 ∧
    (checkIn "2024-05-03" (Answer.yes roundedUpDraw) alreadyRevealedState).map State.seed =
      some 600000001 ∧
    ⌊roundedUpDraw * 1000000000⌋ = 600000000 ∧
    (checkIn "2024-05-03" (Answer.yes roundedUpDraw) alreadyRevealedState).map State.seed ≠
      some ⌊roundedUpDraw * 1000000000⌋ := by
  have hs : (checkIn "2024-05-03" (Answer.yes roundedUpDraw) alreadyRevealedState).map
      State.seed = some 600000001 := by
    simp [checkIn, alreadyRevealedState, onYes, checkInEffect, resetImage,
      drawSeed_roundedUpDraw]
  refine ⟨by simp [alreadyRevealedState], isBinary64_roundedUpDraw,
    by unfold roundedUpDraw; norm_num, by unfold roundedUpDraw; norm_num, hs,
    floor_roundedUpDraw, ?_⟩
  rw [hs, floor_roundedUpDraw]
  decide

/-- C5 amended: while the check-in is pending, answering "Yes" with a binary64 draw `u` in
`[0,1)` sets `lastCheckDate` to today, `streakDays` to 0, empties the revealed set, clears
`lastRevealDate` and `answeredNo`, and sets the seed to the floor of the binary64 product
`u * 1e9`; that seed does not mention the old seed, lies in `[0, 10^9)` and is `⌊u * 10^9⌋` or
`⌊u * 10^9⌋ + 1`.  `totalSoberDays`, the badge history and the pending badge are unchanged. -/
theorem checkIn_yes_effect (today : String) (u : ℚ) (s : State)
    (h : s.lastCheckDate ≠ some today) (hb : IsBinary64 u) (hu0 : 0 ≤ u) (hu1 : u < 1) :
    checkIn today (Answer.yes u) s =
      some { s with
        seed := ⌊roundBinary64 (u * 1000000000)⌋
        revealed := ∅
        answeredNo := false
        lastCheckDate := some today
        lastRevealDate := none
        streakDays := 0
        modal := none } ∧
    0 ≤ ⌊roundBinary64 (u * 1000000000)⌋ ∧ ⌊roundBinary64 (u * 1000000000)⌋ < 1000000000 ∧
    ⌊u * 1000000000⌋ ≤ ⌊roundBinary64 (u * 1000000000)⌋ ∧
    ⌊roundBinary64 (u * 1000000000)⌋ ≤ ⌊u * 1000000000⌋ + 1 :=
  ⟨by simp [checkIn, h, onYes, checkInEffect, resetImage, drawSeed],
    drawSeed_bounds u hb hu0 hu1⟩

/-- C5 amended, at a state whose last check-in was the day before, with `u = 1/4`. -/
theorem checkIn_yes_effect_witness :
    (checkIn "2024-05-03" (Answer.yes (1 / 4)) alreadyRevealedState).map State.revealed = some ∅ ∧
    (checkIn "2024-05-03" (Answer.yes (1 / 4)) alreadyRevealedState).map State.streakDays =
      some 0 ∧
    ⌊roundBinary64 ((1 / 4 : ℚ) * 1000000000)⌋ < 1000000000 := by
  have h := checkIn_yes_effect "2024-05-03" (1 / 4) alreadyRevealedState
    (by simp [alreadyRevealedState]) ⟨1, 2, by norm_num, by norm_num, by norm_num⟩
    (by norm_num) (by norm_num)
  rw [h.1]
  exact ⟨rfl, rfl, h.2.2.1⟩

/-- C6: the completion effect mints (takes `pendingBadge` from null to the new badge) exactly
when the revealed set has `grid * grid` members and no badge is pending; otherwise it returns
the state as it is; and running it again after it ran, on any day, changes nothing. -/
theorem completionEffect_mints_iff (grid : Int) (today later : String) (s : State) :
    ((s.pendingBadge = none ∧
        (completionEffect grid today s).pendingBadge = some (mkBadge today s)) ↔
      ((s.revealed.card : Int) = grid * grid ∧ s.pendingBadge = none)) ∧
    ((completionEffect grid today s).pendingBadge ≠ s.pendingBadge ↔
      ((s.revealed.card : Int) = grid * grid ∧ s.pendingBadge = none)) ∧
    (completionEffect grid today s ≠ s ↔
      ((s.revealed.card : Int) = grid * grid ∧ s.pendingBadge = none)) ∧
    completionEffect grid later (completionEffect grid today s) =
      completionEffect grid today s := by
  unfold completionEffect
  by_cases hc : (s.revealed.card : Int) = grid * grid ∧ s.pendingBadge = none
  · obtain ⟨h1, h2⟩ := hc
    refine ⟨?_, ?_, ?_, ?_⟩
    · simp [h1, h2]
    · simp [h1, h2]
    · simp only [h1, h2, and_self, if_true, iff_true]
      intro h
      have := congrArg State.pendingBadge h
      simp [h2] at this
    · simp [h1, h2]
  · refine ⟨?_, ?_, ?_, ?_⟩
    · simp only [if_neg hc, iff_false_right hc]
      rintro ⟨h1, h2⟩
      simp [h1] at h2
    · simp [if_neg hc, hc]
    · simp [if_neg hc, hc]
    · simp [if_neg hc]

/-! ### One reveal per day -/

theorem completionEffect_revealed (grid : Int) (today : String) (s : State) :
    (completionEffect grid today s).revealed = s.revealed := by
  unfold completionEffect; split_ifs <;> rfl

theorem completionEffect_badges (grid : Int) (today : String) (s : State) :
    (completionEffect grid today s).badges = s.badges := by
  unfold completionEffect; split_ifs <;> rfl

theorem revealBudget_completionEffect (grid : Int) (today t : String) (s : State) :
    revealBudget today (completionEffect grid t s) = revealBudget today s := by
  unfold completionEffect revealBudget; split_ifs <;> simp_all

theorem revealBudget_le_one (today : String) (s : State) : revealBudget today s ≤ 1 := by
  unfold revealBudget; split_ifs <;> simp

/-- A successful reveal spends the budget; no action of the day restores it. -/
theorem revealBudget_act (today : String) (s : State) (a : Action) :
    (if revealSucceeded today s a then 1 else 0) + revealBudget today (act today s a) ≤
      revealBudget today s := by
  cases a with
  | checkInYes u =>
    by_cases h : s.lastCheckDate = some today <;>
      simp [act, checkIn, h, revealSucceeded, revealBudget, onYes, checkInEffect, resetImage]
  | checkInNo =>
    by_cases h : s.lastCheckDate = some today
    · simp [act, checkIn, h, revealSucceeded]
    · simp only [act, checkIn, h, revealSucceeded, revealBudget, onNo, checkInEffect]
      simp
      split_ifs <;> simp
  | reveal i =>
    by_cases h1 : s.lastCheckDate = some today
    · by_cases h2 : s.answeredNo = true
      · by_cases h3 : s.lastRevealDate = some today <;>
          simp [act, revealSucceeded, revealCell, showMessage, revealBudget, h1, h2, h3]
      · simp [act, revealSucceeded, revealCell, showMessage, revealBudget, h1, h2]
    · simp [act, revealSucceeded, revealCell, showMessage, revealBudget, h1]
  | share ok u =>
    cases hp : s.pendingBadge with
    | none => simp [act, hp, revealSucceeded]
    | some b =>
      cases ok
      · simp [act, hp, revealSucceeded, onShare, revealBudget]
      · by_cases h1 : s.lastCheckDate = some today <;>
          simp [act, hp, revealSucceeded, onShare, revealBudget, resetImage, h1]
  | nextImage u =>
    cases hp : s.pendingBadge with
    | none => simp [act, hp, revealSucceeded]
    | some b =>
      by_cases h1 : s.lastCheckDate = some today <;>
        simp [act, hp, revealSucceeded, onNextImage, revealBudget, resetImage, h1]

theorem successfulReveals_le_budget (grid : Int) (today : String) (acts : List Action) :
    ∀ s : State, successfulReveals grid today s acts ≤ revealBudget today s := by
  induction acts with
  | nil => intro s; simp [successfulReveals]
  | cons a rest ih =>
    intro s
    have h1 := ih (step grid today s a)
    have h2 := revealBudget_act today s a
    simp only [successfulReveals]
    unfold step at h1 ⊢
    rw [revealBudget_completionEffect] at h1
    omega

/-- Relative to a reference set `base`, the members gained plus the remaining budget never
exceed one, whatever the action. -/
theorem gained_act (today : String) (base : Finset Nat) (s : State) (a : Action)
    (h : (s.revealed \ base).card + revealBudget today s ≤ 1) :
    ((act today s a).revealed \ base).card + revealBudget today (act today s a) ≤ 1 := by
  have hb := revealBudget_act today s a
  cases a with
  | checkInYes u =>
    by_cases h1 : s.lastCheckDate = some today
    · simpa [act, checkIn, h1] using h
    · simp [act, checkIn, h1, revealBudget, onYes, checkInEffect, resetImage]
  | checkInNo =>
    by_cases h1 : s.lastCheckDate = some today
    · simpa [act, checkIn, h1] using h
    · have hs : revealBudget today s = 1 := by simp [revealBudget, h1]
      have hr : (act today s Action.checkInNo).revealed = s.revealed := by
        simp [act, checkIn, h1, onNo, checkInEffect]
      have := revealBudget_le_one today (act today s Action.checkInNo)
      rw [hr]
      omega
  | reveal i =>
    by_cases hok : revealSucceeded today s (Action.reveal i) = true
    · simp only [hok, if_true] at hb
      have hsub : (act today s (Action.reveal i)).revealed \ base ⊆
          insert i (s.revealed \ base) := by
        intro x hx
        have hx1 : x ∈ (act today s (Action.reveal i)).revealed := (Finset.mem_sdiff.mp hx).1
        have hx2 : x ∉ base := (Finset.mem_sdiff.mp hx).2
        have hx3 : x ∈ insert i s.revealed := by
          revert hx1
          simp only [act, revealCell, showMessage]
          split_ifs <;> simp <;> tauto
        rcases Finset.mem_insert.mp hx3 with h4 | h4
        · exact Finset.mem_insert.mpr (Or.inl h4)
        · exact Finset.mem_insert.mpr (Or.inr (Finset.mem_sdiff.mpr ⟨h4, hx2⟩))
      have hc := (Finset.card_le_card hsub).trans (Finset.card_insert_le i (s.revealed \ base))
      omega
    · have hr : (act today s (Action.reveal i)).revealed = s.revealed := by
        revert hok
        simp only [act, revealSucceeded, revealCell, showMessage]
        split_ifs <;> simp
      simp only [hok] at hb
      rw [hr]
      omega
  | share ok u =>
    cases hp : s.pendingBadge with
    | none => simpa [act, hp] using h
    | some b =>
      cases ok
      · simpa [act, hp, onShare, revealBudget] using h
      · have := revealBudget_le_one today (act today s (Action.share true u))
        have hr : (act today s (Action.share true u)).revealed = ∅ := by
          simp [act, hp, onShare, resetImage]
        rw [hr]
        simpa using this
  | nextImage u =>
    cases hp : s.pendingBadge with
    | none => simpa [act, hp] using h
    | some b =>
      have := revealBudget_le_one today (act today s (Action.nextImage u))
      have hr : (act today s (Action.nextImage u)).revealed = ∅ := by
        simp [act, hp, onNextImage, resetImage]
      rw [hr]
      simpa using this

theorem gained_runDay (grid : Int) (today : String) (base : Finset Nat) (acts : List Action) :
    ∀ s : State, (s.revealed \ base).card + revealBudget today s ≤ 1 →
      ((runDay grid today s acts).revealed \ base).card +
        revealBudget today (runDay grid today s acts) ≤ 1 := by
  induction acts with
  | nil => intro s h; simpa [runDay, runDays] using h
  | cons a rest ih =>
    intro s h
    have h1 := gained_act today base s a h
    have h2 := ih (step grid today s a) (by
      unfold step
      rw [completionEffect_revealed, revealBudget_completionEffect]
      exact h1)
    simpa [runDay, runDays] using h2

/-- C3: along any sequence of check-ins, reveals, "Share" and "Next image" on one day, with the
completion effect after each action, at most one `revealCell` call succeeds, and the final
revealed set has at most one member that the starting set did not have. -/
theorem at_most_one_reveal_per_day (grid : Int) (today : String) (s : State)
    (acts : List Action) :
    successfulReveals grid today s acts ≤ 1 ∧
    ((runDay grid today s acts).revealed \ s.revealed).card ≤ 1 := by
  constructor
  · exact (successfulReveals_le_budget grid today acts s).trans (revealBudget_le_one today s)
  · have h := gained_runDay grid today s.revealed acts s (by
      simpa using revealBudget_le_one today s)
    omega

/-! ### Badge numbering -/

theorem Numbered_completionEffect (grid : Int) (today : String) (s : State) (h : Numbered s) :
    Numbered (completionEffect grid today s) := by
  unfold completionEffect
  split_ifs with hc
  · refine ⟨h.1, ?_⟩
    intro b hb
    simp only [Option.some.injEq] at hb
    subst hb
    rfl
  · exact h

theorem Numbered_cons (earned : Badge) (s t : State) (h : Numbered s)
    (hp : s.pendingBadge = some earned) (hb : t.badges = earned :: s.badges)
    (hn : t.pendingBadge = none) : Numbered t := by
  refine ⟨?_, ?_⟩
  · rw [hb, List.map_cons, h.1, h.2 earned hp]
    simp [countdown]
  · intro b hb2
    rw [hn] at hb2
    cases hb2

/-- Every action except a "Share" whose export fails keeps the numbering and lengthens the
history by one exactly when it resolves a pending badge. -/
theorem Numbered_act (today : String) (s : State) (a : Action) (h : Numbered s)
    (ha : a.isFailedShare = false) :
    Numbered (act today s a) ∧
      (act today s a).badges.length = s.badges.length + (if resolves s a then 1 else 0) := by
  cases a with
  | checkInYes u =>
    by_cases h1 : s.lastCheckDate = some today
    · simpa [act, checkIn, h1, resolves] using h
    · simpa [act, checkIn, h1, resolves, onYes, checkInEffect, resetImage, Numbered] using h
  | checkInNo =>
    by_cases h1 : s.lastCheckDate = some today
    · simpa [act, checkIn, h1, resolves] using h
    · simpa [act, checkIn, h1, resolves, onNo, checkInEffect, Numbered] using h
  | reveal i =>
    have hb : (revealCell today i s).badges = s.badges := by
      unfold revealCell showMessage; split_ifs <;> rfl
    have hp : (revealCell today i s).pendingBadge = s.pendingBadge := by
      unfold revealCell showMessage; split_ifs <;> rfl
    refine ⟨?_, ?_⟩
    · simpa [act, Numbered, hb, hp] using h
    · simp [act, resolves, hb]
  | share ok u =>
    cases hp : s.pendingBadge with
    | none => simpa [act, hp, resolves] using h
    | some b =>
      cases ok
      · simp [Action.isFailedShare] at ha
      · refine ⟨Numbered_cons b s _ h hp ?_ ?_, ?_⟩ <;>
          simp [act, hp, onShare, resetImage, resolves]
  | nextImage u =>
    cases hp : s.pendingBadge with
    | none => simpa [act, hp, resolves] using h
    | some b =>
      refine ⟨Numbered_cons b s _ h hp ?_ ?_, ?_⟩ <;>
        simp [act, hp, onNextImage, resetImage, resolves]

theorem Numbered_runDays (grid : Int) (acts : List (String × Action)) :
    ∀ s : State, Numbered s → (∀ p ∈ acts, p.2.isFailedShare = false) →
      Numbered (runDays grid s acts) ∧
        (runDays grid s acts).badges.length = s.badges.length + resolutions grid s acts := by
  induction acts with
  | nil => intro s h _; simpa [runDays, resolutions] using h
  | cons p rest ih =>
    intro s h hall
    obtain ⟨today, a⟩ := p
    have ha := Numbered_act today s a h (hall (today, a) (List.mem_cons_self _ _))
    have hs : Numbered (step grid today s a) :=
      Numbered_completionEffect grid today _ ha.1
    have hr := ih (step grid today s a) hs (fun q hq => hall q (List.mem_cons_of_mem _ hq))
    have hl : (step grid today s a).badges.length =
        s.badges.length + (if resolves s a then 1 else 0) := by
      unfold step; rw [completionEffect_badges]; exact ha.2
    refine ⟨by simpa [runDays] using hr.1, ?_⟩
    simp only [runDays, resolutions]
    omega

/-- C7: with `n` badges in the history, a complete grid and nothing pending, the completion
effect mints a badge numbered `n + 1`, and "Next image" (on that day or a later one) puts that
badge in front of the unchanged history, clears the pending badge, empties the revealed set,
clears `lastRevealDate` and draws a new seed.  Hence, from an empty history with nothing
pending, after any run in which no "Share" export fails and `k` pending badges were resolved,
the history's badge numbers are `k, k-1, ..., 1`. -/
theorem badge_history_numbering :
    (∀ (grid : Int) (today later : String) (u : ℚ) (s : State),
      (s.revealed.card : Int) = grid * grid → s.pendingBadge = none →
        (completionEffect grid today s).pendingBadge = some (mkBadge today s) ∧
        (mkBadge today s).number = (s.badges.length : Int) + 1 ∧
        act later (completionEffect grid today s) (Action.nextImage u) =
          { s with
            seed := drawSeed u
            revealed := ∅
            answeredNo := false
            lastRevealDate := none
            badges := mkBadge today s :: s.badges
            pendingBadge := none
            modal := none }) ∧
    (∀ (grid : Int) (s : State) (acts : List (String × Action)),
      s.badges = [] → s.pendingBadge = none → (∀ p ∈ acts, p.2.isFailedShare = false) →
        (runDays grid s acts).badges.map Badge.number = countdown (resolutions grid s acts) ∧
        (runDays grid s acts).badges.length = resolutions grid s acts) := by
  constructor
  · intro grid today later u s hc hp
    simp [completionEffect, hc, hp, act, onNextImage, resetImage, mkBadge]
  · intro grid s acts hb hp hall
    have h0 : Numbered s := by
      refine ⟨by simp [hb, countdown], ?_⟩
      intro b hb2
      rw [hp] at hb2
      cases hb2
    have h := Numbered_runDays grid acts s h0 hall
    have hl : (runDays grid s acts).badges.length = resolutions grid s acts := by
      simpa [hb] using h.2
    exact ⟨by rw [h.1.1, hl], hl⟩

/-- C7 on the 3×3 `completeState` and on two completion cycles of a 1×1 grid. -/
theorem badge_history_numbering_witness :
    (mkBadge "2024-05-02" completeState).number = 1 ∧
    (act "2024-05-03" (completionEffect 3 "2024-05-02" completeState)
      (Action.nextImage (1 / 4))).badges = [mkBadge "2024-05-02" completeState] ∧
    (runDays 1 freshState twoCycles).badges.map Badge.number = [2, 1] := by
  have h1 := badge_history_numbering.1 3 "2024-05-02" "2024-05-03" (1 / 4) completeState
    (by decide) rfl
  have h2 := badge_history_numbering.2 1 freshState twoCycles rfl rfl (by decide)
  refine ⟨?_, ?_, ?_⟩
  · rw [h1.2.1]; rfl
  · rw [h1.2.2]; rfl
  · rw [h2.1, ← h2.2]
    simp [runDays, twoCycles, step, act, checkIn, onNo, checkInEffect, revealCell, showMessage,
      completionEffect, onNextImage, resetImage, freshState, countdown, mkBadge]

/-- C9 on the code: at `pendingState`, "Share" with a failing export puts the badge in the
history and stops there; the badge stays pending, the revealed set, the seed and
`lastRevealDate` are not reset, and a following "Next image" stores the same badge again. -/
theorem share_export_failure_skips_reset :
    pendingState.pendingBadge.isSome = true ∧
    (act "2024-05-02" pendingState (Action.share false (1 / 4))).pendingBadge =
      pendingState.pendingBadge ∧
    (act "2024-05-02" pendingState (Action.share false (1 / 4))).revealed =
      pendingState.revealed ∧
    (act "2024-05-02" pendingState (Action.share false (1 / 4))).seed = pendingState.seed ∧
    (act "2024-05-02" pendingState (Action.share false (1 / 4))).lastRevealDate =
      some "2024-05-02" ∧
    ((act "2024-05-02" pendingState (Action.share false (1 / 4))).badges.map Badge.number) =
      [1] ∧
    ((act "2024-05-02" (act "2024-05-02" pendingState (Action.share false (1 / 4)))
      (Action.nextImage (1 / 4))).badges.map Badge.number) = [1, 1] := by
  simp [act, onShare, onNextImage, resetImage, pendingState]

/-! ### Restoring persisted state -/

/-- C8 fails as stated: a stored negative `streakDays` is restored as it is, not as 0. -/
theorem initialise_negative_counter_counterexample :
    ∃ st, initialise (some negativeStreakPayload) (1 / 4) = Except.ok st ∧
      st.streakDays = -5 ∧ st.streakDays ≠ 0 :=
  ⟨_, rfl, rfl, by decide⟩

/-- A `revealed` field that is a number makes the `revealed` initialiser throw, where
`badges` with the same value falls back to the empty history through `safeArray`. -/
theorem initialise_nonarray_revealed_throws (u : ℚ) :
    initialise (some (JSON.obj [("revealed", JSON.num 5)])) u =
      Except.error "TypeError: object is not iterable" ∧
    safeArray (getField (JSON.obj [("badges", JSON.num 5)]) "badges") = [] :=
  ⟨rfl, rfl⟩

/-- C8 amended: for a parsed payload whose `revealed` field is absent, null or an array,
initialisation returns a state, and each field is decided by its own stored value: `revealed`
is empty when absent or null and the set of the array otherwise; `badges` is empty unless it
is an array; `streakDays` and `totalSoberDays` are the stored value when it is a finite
number (negative included) and 0 otherwise; `gridSize` is the stored value when it is a
finite number and 3 otherwise. -/
theorem initialise_defaults (parsed : Option JSON) (u : ℚ)
    (hr : getField (loadState parsed) "revealed" = none ∨
      getField (loadState parsed) "revealed" = some JSON.null ∨
      ∃ items, getField (loadState parsed) "revealed" = some (JSON.arr items)) :
    ∃ st, initialise parsed u = Except.ok st ∧
      (getField (loadState parsed) "revealed" = none ∨
        getField (loadState parsed) "revealed" = some JSON.null → st.revealed = []) ∧
      (∀ items, getField (loadState parsed) "revealed" = some (JSON.arr items) →
        st.revealed = newSet items) ∧
      ((∀ items, getField (loadState parsed) "badges" ≠ some (JSON.arr items)) →
        st.badges = []) ∧
      (∀ items, getField (loadState parsed) "badges" = some (JSON.arr items) →
        st.badges = items) ∧
      (∀ n, getField (loadState parsed) "streakDays" = some (JSON.num n) → st.streakDays = n) ∧
      ((∀ n, getField (loadState parsed) "streakDays" ≠ some (JSON.num n)) →
        st.streakDays = 0) ∧
      (∀ n, getField (loadState parsed) "totalSoberDays" = some (JSON.num n) →
        st.totalSoberDays = n) ∧
      ((∀ n, getField (loadState parsed) "totalSoberDays" ≠ some (JSON.num n)) →
        st.totalSoberDays = 0) ∧
      (∀ n, getField (loadState parsed) "gridSize" = some (JSON.num n) → st.gridSize = n) ∧
      ((∀ n, getField (loadState parsed) "gridSize" ≠ some (JSON.num n)) → st.gridSize = 3) := by
  have hfin : ∀ (v : Option JSON) (d : Int),
      (∀ n, v = some (JSON.num n) → finiteOr v d = n) ∧
      ((∀ n, v ≠ some (JSON.num n)) → finiteOr v d = d) := by
    intro v d
    constructor
    · intro n hn; rw [hn]; rfl
    · intro hn
      unfold finiteOr
      split
      · next n => exact absurd rfl (hn n)
      · rfl
  have hbad : (∀ items, getField (loadState parsed) "badges" ≠ some (JSON.arr items)) →
      safeArray (getField (loadState parsed) "badges") = [] := by
    intro hn
    unfold safeArray
    split
    · next items heq => exact absurd heq (hn items)
    · rfl
  have hbad2 : ∀ items, getField (loadState parsed) "badges" = some (JSON.arr items) →
      safeArray (getField (loadState parsed) "badges") = items := by
    intro items h; rw [h]; rfl
  have hrev : ∃ items, initRevealed (loadState parsed) = Except.ok items ∧
      (getField (loadState parsed) "revealed" = none ∨
        getField (loadState parsed) "revealed" = some JSON.null → items = []) ∧
      (∀ xs, getField (loadState parsed) "revealed" = some (JSON.arr xs) →
        items = newSet xs) := by
    rcases hr with h | h | ⟨xs, h⟩
    · refine ⟨[], by simp [initRevealed, h, nullish, iterate, newSet], fun _ => rfl, ?_⟩
      intro ys hy; rw [h] at hy; cases hy
    · refine ⟨[], by simp [initRevealed, h, nullish, iterate, newSet], fun _ => rfl, ?_⟩
      intro ys hy; rw [h] at hy; cases hy
    · refine ⟨newSet xs, by simp [initRevealed, h, nullish, iterate], ?_, ?_⟩
      · rintro (h2 | h2) <;> rw [h] at h2 <;> cases h2
      · intro ys hy; rw [h] at hy; cases hy; rfl
  obtain ⟨items, hi, hi1, hi2⟩ := hrev
  have hinit : initialise parsed u = Except.ok
      { seed := nullish (getField (loadState parsed) "seed") (JSON.num (drawSeed u))
        revealed := items
        answeredNo := nullish (getField (loadState parsed) "answeredNo") (JSON.bool false)
        lastCheckDate := nullish (getField (loadState parsed) "lastCheckDate") JSON.null
        lastRevealDate := nullish (getField (loadState parsed) "lastRevealDate") JSON.null
        badges := safeArray (getField (loadState parsed) "badges")
        streakDays := finiteOr (getField (loadState parsed) "streakDays") 0
        totalSoberDays := finiteOr (getField (loadState parsed) "totalSoberDays") 0
        gridSize := finiteOr (getField (loadState parsed) "gridSize") 3 } := by
    simp only [initialise, hi, DEFAULT_GRID]
  exact ⟨_, hinit, hi1, hi2, hbad, hbad2,
    (hfin (getField (loadState parsed) "streakDays") 0).1,
    (hfin (getField (loadState parsed) "streakDays") 0).2,
    (hfin (getField (loadState parsed) "totalSoberDays") 0).1,
    (hfin (getField (loadState parsed) "totalSoberDays") 0).2,
    (hfin (getField (loadState parsed) "gridSize") 3).1,
    (hfin (getField (loadState parsed) "gridSize") 3).2⟩

/-- C8 amended, at a payload with wrongly typed `badges`, counters and `gridSize`. -/
theorem initialise_defaults_witness :
    ∃ st, initialise (some wrongTypesPayload) (1 / 4) = Except.ok st ∧
      st.revealed = [] ∧ st.badges = [] ∧ st.streakDays = 0 ∧ st.totalSoberDays = 0 ∧
      st.gridSize = 3 := by
  obtain ⟨st, h0, h1, _, h3, _, _, h6, _, h8, _, h10⟩ :=
    initialise_defaults (some wrongTypesPayload) (1 / 4) (Or.inl rfl)
  refine ⟨st, h0, h1 (Or.inl rfl), h3 ?_, h6 ?_, h8 ?_, h10 ?_⟩ <;>
    intro x hx <;> simp [getField, loadState, wrongTypesPayload, List.lookup] at hx

/-! ### Seeded art generator -/

theorem bind_run {α β : Type} (m : StateM Nat α) (f : α → StateM Nat β) (t : Nat) :
    (m >>= f) t = f (m t).1 (m t).2 := rfl

theorem pure_run {α : Type} (a : α) (t : Nat) : (pure a : StateM Nat α) t = (a, t) := rfl

theorem arrayFrom_kinds (f : StateM Nat Layer) (k : LayerKind)
    (hf : ∀ t, (f t).1.kind = k) :
    ∀ (n t : Nat), ((arrayFrom f n) t).1.map Layer.kind = List.replicate n k := by
  intro n
  induction n with
  | zero => intro t; rfl
  | succ n ih =>
    intro t
    show ((f t).1 :: (arrayFrom f n (f t).2).1).map Layer.kind = _
    rw [List.map_cons, hf, ih, List.replicate_succ]

theorem sweep_kind (a : ℚ) (deg h1 h2 : Int) (t : Nat) :
    (sweep a deg h1 h2 t).1.kind = LayerKind.sweep := rfl

theorem spot_kind (h s l : Int) (alpha : ℚ) (t : Nat) :
    (spot h s l alpha t).1.kind = LayerKind.spot := rfl

/-- Whatever the generator state, the layers come out in `layerOrder`. -/
theorem artLayers_kinds (t : Nat) : (artLayers t).1.map Layer.kind = layerOrder := by
  simp only [artLayers, bind_run, pure_run, List.map_append, List.map_cons, List.map_nil,
    sweep_kind, spot_kind,
    arrayFrom_kinds spark LayerKind.spark (fun _ => rfl),
    arrayFrom_kinds voidBlob LayerKind.void (fun _ => rfl)]
  simp only [Layer.kind, layerOrder]

/-- C10: `makeArtCss` is a function of the seed alone (it reads nothing but its argument, so
equal seeds give equal results), and for every integer seed, negative and zero included, its
result has exactly 32 layers in one fixed order: vignette, grain, glaze, 18 sparks, 6 voids,
the conic sweep, 3 radial spots, and the base gradient last. -/
theorem makeArtCss_layer_order (seed : Int) :
    (makeArtCss seed).length = 32 ∧
    (makeArtCss seed).map Layer.kind =
      [LayerKind.vignette, LayerKind.grain, LayerKind.glaze] ++
        List.replicate 18 LayerKind.spark ++ List.replicate 6 LayerKind.void ++
        [LayerKind.sweep, LayerKind.spot, LayerKind.spot, LayerKind.spot, LayerKind.base] ∧
    ∀ other : Int, other = seed → makeArtCss other = makeArtCss seed := by
  have h : (makeArtCss seed).map Layer.kind = layerOrder := artLayers_kinds (randFromSeed seed)
  refine ⟨?_, h, fun other ho => by rw [ho]⟩
  have := congrArg List.length h
  simpa [layerOrder] using this

/-- C10 at seed `-1`. -/
theorem makeArtCss_layer_order_witness :
    (makeArtCss (-1)).length = 32 ∧ makeArtCss (-1) = makeArtCss (-1) :=
  ⟨(makeArtCss_layer_order (-1)).1, (makeArtCss_layer_order (-1)).2.2 (-1) rfl⟩

end SoberSquare
